import Mathlib

/-!
# Verification of the FakeAnalogWrite software-PWM engine

Shallow embedding of `examples/FakeAnalogWrite/FakeAnalogWrite.ino`
(TimerInterrupt repository): the fixed-capacity slot table
`curISRTimerData`, the per-tick dispatcher `doingSomething`, the
ISR fan-out loop of `TimerHandler`, and the allocator/updater
`fakeAnalogWrite`.

Machine integers are modelled as `Nat` (for the `uint16_t` fields) and
`Int` (for the `int16_t` fields); no arithmetic in the sketch can
overflow the modelled widths on the values that actually arise, and
the C `%` on `int16_t` is truncated division, modelled by `Int.tmod`.
The compile-time switch `USING_MAPPING_TABLE` is `false` in the source,
so the mapping-table interpolation code is dead and the value stored is
the clamped input itself.  `digitalWrite` calls are modelled as an
explicit list of `(pin, level)` write events returned by the dispatcher.
-/

set_option maxRecDepth 8000

/-- `#define MAX_PWM_VALUE 256` (line 80). -/
abbrev MAX_PWM_VALUE : Nat := 256

/-- `#define NUMBER_ISR_TIMERS 16` (line 103). -/
abbrev NUMBER_ISR_TIMERS : Nat := 16

/-- The `ISRTimerData` struct (lines 135-142).  `PWM_Value` and
`countPWM` are `int16_t` (signed), the other numeric fields `uint16_t`. -/
structure ISRTimerData where
  PWM_Value : Int
  PWM_PremapValue : Nat
  pin : Nat
  countPWM : Int
  beingUsed : Bool
deriving DecidableEq, Repr

/-- The slot table `curISRTimerData` (lines 150-168). -/
abbrev Table := Fin NUMBER_ISR_TIMERS → ISRTimerData

/-- The initializer of `curISRTimerData`: every slot `{ 0, 0, 0, 0, false }`
(lines 151-167, re-established by `setup`, lines 221-228). -/
def initTable : Table := fun _ => ⟨0, 0, 0, 0, false⟩

/-- Point update of one slot of the table; the other slots are untouched. -/
def updateSlot (t : Table) (i : Fin NUMBER_ISR_TIMERS)
    (f : ISRTimerData → ISRTimerData) : Table :=
  fun j => if j = i then f (t j) else t j

/-- Line 192: `countPWM = (countPWM + 1) % MAX_PWM_VALUE`, executed for the
slot unconditionally at the end of `doingSomething`.  C `%` on a signed
operand truncates toward zero, hence `Int.tmod`. -/
def tickSlot (s : ISRTimerData) : ISRTimerData :=
  { s with countPWM := Int.tmod (s.countPWM + 1) ((MAX_PWM_VALUE : Nat) : Int) }

/-- The `digitalWrite` events emitted by one slot in one call of
`doingSomething` (lines 173-190), as `(pin, level)` pairs. -/
def slotWrites (s : ISRTimerData) : List (Nat × Nat) :=
  if s.beingUsed ∧ 0 < s.PWM_Value ∧ s.pin ≠ 0 then
    if s.countPWM = 0 then
      if 0 < s.PWM_Value then [(s.pin, 1)] else [(s.pin, 0)]
    else if s.countPWM = s.PWM_Value then [(s.pin, 0)]
    else []
  else []

/-- `doingSomething(index)` (lines 170-193): emit the write events for the
slot, then advance its `countPWM`.  Returns the new table and the events. -/
def doingSomething (t : Table) (index : Fin NUMBER_ISR_TIMERS) :
    Table × List (Nat × Nat) :=
  (updateSlot t index tickSlot, slotWrites (t index))

/-- The PWM fan-out loop of `TimerHandler` (lines 110-113): one tick of
every slot, in index order.  The LED heartbeat (lines 116-123) only does
external I/O on `LED_BUILTIN` and touches no slot state, so it is not part
of the slot-table model. -/
def TimerHandler (t : Table) : Table :=
  (List.finRange NUMBER_ISR_TIMERS).foldl (fun acc i => (doingSomething acc i).1) t

/-- The clamp `localValue = (value < MAX_PWM_VALUE) ? value : MAX_PWM_VALUE`
(lines 246 and 324).  Note the upper end is `MAX_PWM_VALUE` itself, not
`MAX_PWM_VALUE - 1`. -/
def localValue (value : Nat) : Nat :=
  if value < MAX_PWM_VALUE then value else MAX_PWM_VALUE

/-- The first scan of `fakeAnalogWrite` (lines 242-314): first slot that is
in use and bound to `pin`. -/
def findBound (t : Table) (pin : Nat) : Option (Fin NUMBER_ISR_TIMERS) :=
  (List.finRange NUMBER_ISR_TIMERS).find? fun i =>
    (t i).beingUsed && ((t i).pin == pin)

/-- The second scan of `fakeAnalogWrite` (lines 316-373): first free slot. -/
def findFree (t : Table) : Option (Fin NUMBER_ISR_TIMERS) :=
  (List.finRange NUMBER_ISR_TIMERS).find? fun i => !(t i).beingUsed

/-- `fakeAnalogWrite(pin, value)` (lines 233-374) with
`USING_MAPPING_TABLE == false`:

* slot already bound to `pin` (lines 244-313):
  - same `PWM_PremapValue` as the clamped value: return, nothing written
    (lines 248-255);
  - `PWM_Value >= 0` (line 256): store the clamped value into
    `PWM_PremapValue` (line 258) and `PWM_Value` (lines 261-292; with the
    mapping table disabled both arms of the boundary test store
    `localValue`), reset `countPWM` (line 310);
  - `PWM_Value < 0` (lines 302-307): free the slot — clear `beingUsed`,
    `pin` and `PWM_Value`, and reset `countPWM` (line 310);
* no slot bound to `pin`: first free slot (lines 316-373) gets
  `beingUsed = true`, `pin`, `PWM_Value = localValue` and `countPWM = 0`;
  `PWM_PremapValue` is stored only on the non-boundary arm (line 333) —
  the arm for `localValue ∈ {0, MAX_PWM_VALUE-1}` (lines 326-330) leaves
  it untouched;
* no bound slot and no free slot: the call returns with no effect. -/
def fakeAnalogWrite (t : Table) (pin value : Nat) : Table :=
  match findBound t pin with
  | some i =>
      if (t i).PWM_PremapValue = localValue value then
        t
      else if 0 ≤ (t i).PWM_Value then
        updateSlot t i fun s =>
          { s with PWM_PremapValue := localValue value,
                   PWM_Value := ((localValue value : Nat) : Int),
                   countPWM := 0 }
      else
        updateSlot t i fun s =>
          { s with beingUsed := false, pin := 0, PWM_Value := 0, countPWM := 0 }
  | none =>
      match findFree t with
      | some i =>
          updateSlot t i fun s =>
            if localValue value = 0 ∨ localValue value = MAX_PWM_VALUE - 1 then
              { s with beingUsed := true, pin := pin,
                       PWM_Value := ((localValue value : Nat) : Int),
                       countPWM := 0 }
            else
              { s with beingUsed := true, pin := pin,
                       PWM_PremapValue := localValue value,
                       PWM_Value := ((localValue value : Nat) : Int),
                       countPWM := 0 }
      | none => t

/-- The level a pin holds after a list of `digitalWrite` events, starting
from level `lvl`: the last write to that pin wins. -/
def applyWrites (p lvl : Nat) (ws : List (Nat × Nat)) : Nat :=
  ws.foldl (fun l w => if w.1 = p then w.2 else l) lvl

/-- One dispatcher tick of slot `i`, tracking the level of pin `p`. -/
def dispatchStep (i : Fin NUMBER_ISR_TIMERS) (p : Nat) (st : Table × Nat) :
    Table × Nat :=
  ((doingSomething st.1 i).1, applyWrites p st.2 (doingSomething st.1 i).2)

/-- `n` dispatcher ticks of slot `i`, tracking the level of pin `p`. -/
def dispatchRun (i : Fin NUMBER_ISR_TIMERS) (p : Nat) :
    Nat → Table × Nat → Table × Nat
  | 0, st => st
  | n + 1, st => dispatchRun i p n (dispatchStep i p st)

/-- Iterated `tickSlot`. -/
def tickIter : Nat → ISRTimerData → ISRTimerData
  | 0, s => s
  | n + 1, s => tickIter n (tickSlot s)

/-- Line 258 of the update path as an isolated store:
`PWM_PremapValue = localValue`. -/
def writePremap (t : Table) (i : Fin NUMBER_ISR_TIMERS) (lv : Nat) : Table :=
  updateSlot t i fun s => { s with PWM_PremapValue := lv }

/-- Line 291 of the update path as an isolated store:
`PWM_Value = localValue`. -/
def writeValue (t : Table) (i : Fin NUMBER_ISR_TIMERS) (lv : Nat) : Table :=
  updateSlot t i fun s => { s with PWM_Value := ((lv : Nat) : Int) }

/-- Line 310 of the update path as an isolated store: `countPWM = 0`. -/
def writeCount (t : Table) (i : Fin NUMBER_ISR_TIMERS) : Table :=
  updateSlot t i fun s => { s with countPWM := 0 }

/-- Tables reachable through the public interface: the initial table,
`fakeAnalogWrite` from main context, and the `TimerHandler` tick. -/
inductive Reachable : Table → Prop
  | init : Reachable initTable
  | request (p v : Nat) {t : Table} : Reachable t → Reachable (fakeAnalogWrite t p v)
  | tick {t : Table} : Reachable t → Reachable (TimerHandler t)

/-- The slot-level state invariant maintained by the public interface:
`countPWM` stays a phase in `[0, 255]` and `PWM_Value` stays in
`[0, MAX_PWM_VALUE]` (note: the clamp in `fakeAnalogWrite` allows the
value `MAX_PWM_VALUE` itself). -/
def SlotInv (s : ISRTimerData) : Prop :=
  0 ≤ s.countPWM ∧ s.countPWM ≤ 255 ∧ 0 ≤ s.PWM_Value ∧ s.PWM_Value ≤ 256

/-- A table with all 16 slots occupied by pins `1..16` — used to exercise
the capacity-exhaustion path. -/
def fullTable : Table := fun i => ⟨1, 0, (i : Nat) + 1, 0, true⟩

/-- A table whose slot 0 is bound to pin `7` and marked for release
(`PWM_Value < 0`) — the state the release branch of `fakeAnalogWrite`
handles.  (No public call sequence produces a negative `PWM_Value`; the
marker would have to be planted by direct access to the `volatile`
array.) -/
def releaseTable : Table :=
  updateSlot initTable 0 fun s =>
    { s with beingUsed := true, pin := 7, PWM_Value := -3 }

/-- A mid-period state: slot 0 bound to pin `2`, duty `10`, phase `100` —
the state in which the unmasked update of `fakeAnalogWrite(2, 200)` is
interrupted between its `PWM_Value` store (line 291) and its `countPWM`
store (line 310). -/
def tornBase : Table :=
  updateSlot initTable 0 fun s =>
    { s with beingUsed := true, pin := 2, PWM_Value := 10,
             PWM_PremapValue := 10, countPWM := 100 }

/-! ## Basic lemmas about the slot table operations -/

lemma updateSlot_self (t : Table) (i : Fin NUMBER_ISR_TIMERS)
    (f : ISRTimerData → ISRTimerData) : updateSlot t i f i = f (t i) := by
  simp [updateSlot]

lemma updateSlot_other (t : Table) (i j : Fin NUMBER_ISR_TIMERS)
    (f : ISRTimerData → ISRTimerData) (h : j ≠ i) : updateSlot t i f j = t j := by
  simp [updateSlot, h]

lemma tickSlot_PWM_Value (s : ISRTimerData) : (tickSlot s).PWM_Value = s.PWM_Value := rfl

lemma tickSlot_pin (s : ISRTimerData) : (tickSlot s).pin = s.pin := rfl

lemma tickSlot_beingUsed (s : ISRTimerData) : (tickSlot s).beingUsed = s.beingUsed := rfl

lemma tickSlot_PWM_PremapValue (s : ISRTimerData) :
    (tickSlot s).PWM_PremapValue = s.PWM_PremapValue := rfl

lemma tickSlot_countPWM (s : ISRTimerData) :
    (tickSlot s).countPWM = Int.tmod (s.countPWM + 1) 256 := rfl

lemma tickIter_fields (k : Nat) (s : ISRTimerData) :
    (tickIter k s).PWM_Value = s.PWM_Value ∧ (tickIter k s).pin = s.pin ∧
    (tickIter k s).beingUsed = s.beingUsed ∧
    (tickIter k s).PWM_PremapValue = s.PWM_PremapValue := by
  induction k generalizing s with
  | zero => exact ⟨rfl, rfl, rfl, rfl⟩
  | succ n ih => simpa [tickIter, tickSlot] using ih (tickSlot s)

lemma tickIter_add (a b : Nat) (s : ISRTimerData) :
    tickIter (a + b) s = tickIter b (tickIter a s) := by
  induction a generalizing s with
  | zero => simp [tickIter]
  | succ n ih =>
      rw [Nat.succ_add]
      show tickIter (n + b) (tickSlot s) = _
      rw [ih (tickSlot s)]
      rfl

lemma tickIter_countPWM (k : Nat) :
    ∀ (s : ISRTimerData) (c : Nat), s.countPWM = (c : Int) → c + k ≤ 255 →
      (tickIter k s).countPWM = ((c + k : Nat) : Int) := by
  induction k with
  | zero => intro s c hc _; simpa using hc
  | succ n ih =>
      intro s c hc hle
      show (tickIter n (tickSlot s)).countPWM = _
      have hstep : (tickSlot s).countPWM = ((c + 1 : Nat) : Int) := by
        show Int.tmod (s.countPWM + 1) 256 = _
        rw [hc]
        have h1 : (c : Int) + 1 = ((c + 1 : Nat) : Int) := by push_cast; ring
        rw [h1, Int.tmod_eq_of_lt (by positivity) (by exact_mod_cast by omega)]
      rw [ih (tickSlot s) (c + 1) hstep (by omega)]
      congr 1
      omega

/-- `countPWM` after `k` ticks, with wraparound. -/
lemma tickIter_countPWM_mod :
    ∀ (k : Nat) (s : ISRTimerData) (c : Nat), s.countPWM = (c : Int) → c ≤ 255 →
      (tickIter k s).countPWM = (((c + k) % 256 : Nat) : Int) := by
  intro k
  induction k with
  | zero =>
      intro s c hc hle
      show s.countPWM = _
      rw [hc]
      congr 1
      omega
  | succ n ih =>
      intro s c hc hle
      show (tickIter n (tickSlot s)).countPWM = _
      have hstep : (tickSlot s).countPWM = (((c + 1) % 256 : Nat) : Int) := by
        rw [tickSlot_countPWM, hc,
          show ((c : Int) + 1) = ((c + 1 : Nat) : Int) by push_cast; ring,
          show ((256 : Int)) = ((256 : Nat) : Int) by norm_num,
          ← Int.ofNat_tmod]
      rw [ih (tickSlot s) ((c + 1) % 256) hstep (by omega)]
      congr 1
      omega

lemma dispatchRun_fst_apply (i : Fin NUMBER_ISR_TIMERS) (p : Nat) (n : Nat)
    (j : Fin NUMBER_ISR_TIMERS) :
    ∀ st : Table × Nat,
      (dispatchRun i p n st).1 j = if j = i then tickIter n (st.1 j) else st.1 j := by
  induction n with
  | zero => intro st; simp [dispatchRun, tickIter]
  | succ n ih =>
      intro st
      show (dispatchRun i p n (dispatchStep i p st)).1 j = _
      rw [ih (dispatchStep i p st)]
      by_cases h : j = i
      · subst h
        simp [dispatchStep, doingSomething, updateSlot_self]
        rfl
      · simp [h, dispatchStep, doingSomething, updateSlot_other _ _ _ _ h]

lemma dispatchRun_snoc (i : Fin NUMBER_ISR_TIMERS) (p : Nat) (n : Nat) :
    ∀ st : Table × Nat,
      dispatchRun i p (n + 1) st = dispatchStep i p (dispatchRun i p n st) := by
  induction n with
  | zero => intro st; rfl
  | succ n ih =>
      intro st
      show dispatchRun i p (n + 1) (dispatchStep i p st) = _
      rw [ih (dispatchStep i p st)]
      rfl

lemma dispatchRun_add (i : Fin NUMBER_ISR_TIMERS) (p : Nat) (a b : Nat) :
    ∀ st : Table × Nat,
      dispatchRun i p (a + b) st = dispatchRun i p b (dispatchRun i p a st) := by
  induction a with
  | zero => intro st; simp [dispatchRun]
  | succ n ih =>
      intro st
      rw [Nat.succ_add]
      show dispatchRun i p (n + b) (dispatchStep i p st) = _
      rw [ih (dispatchStep i p st)]
      rfl

lemma applyWrites_nil (p lvl : Nat) : applyWrites p lvl [] = lvl := rfl

lemma applyWrites_single (p lvl x : Nat) : applyWrites p lvl [(p, x)] = x := by
  simp [applyWrites]

/-! ## The `TimerHandler` fan-out as a per-slot update -/

lemma foldl_tick_apply (l : List (Fin NUMBER_ISR_TIMERS)) (hl : l.Nodup) :
    ∀ (t : Table) (j : Fin NUMBER_ISR_TIMERS),
      (l.foldl (fun acc i => (doingSomething acc i).1) t) j =
        if j ∈ l then tickSlot (t j) else t j := by
  induction l with
  | nil => intro t j; simp
  | cons a l ih =>
      intro t j
      have hnd := List.nodup_cons.mp hl
      show (l.foldl (fun acc i => (doingSomething acc i).1)
        (doingSomething t a).1) j = _
      rw [ih hnd.2 (doingSomething t a).1 j]
      by_cases hj : j ∈ l
      · have hja : j ≠ a := fun h => hnd.1 (h ▸ hj)
        simp [hj, doingSomething, updateSlot_other _ _ _ _ hja]
      · by_cases hja : j = a
        · subst hja
          simp [hj, doingSomething, updateSlot_self]
        · simp [hj, hja, doingSomething, updateSlot_other _ _ _ _ hja]

/-- Every slot of the table advances by exactly one `tickSlot` per
`TimerHandler` invocation. -/
lemma TimerHandler_apply (t : Table) (j : Fin NUMBER_ISR_TIMERS) :
    TimerHandler t j = tickSlot (t j) := by
  rw [TimerHandler, foldl_tick_apply _ (List.nodup_finRange _) t j,
    if_pos (List.mem_finRange j)]

/-! ## The waveform produced by the dispatcher for one active slot -/

lemma slotWrites_active (s : ISRTimerData) (p v : Nat) (hb : s.beingUsed = true)
    (hpin : s.pin = p) (hp : p ≠ 0) (hv : s.PWM_Value = (v : Int)) (h1 : 1 ≤ v) :
    slotWrites s =
      if s.countPWM = 0 then [(p, 1)]
      else if s.countPWM = (v : Int) then [(p, 0)] else [] := by
  have hpos : (0 : Int) < s.PWM_Value := by rw [hv]; exact_mod_cast h1
  have hvpos : (0 : Int) < (v : Int) := by exact_mod_cast h1
  rw [slotWrites, if_pos ⟨hb, hpos, by rw [hpin]; exact hp⟩, hpin, hv]
  by_cases hc : s.countPWM = 0
  · rw [if_pos hc, if_pos hc, if_pos hvpos]
  · rw [if_neg hc, if_neg hc]

/-- Levels over the first period: starting at `countPWM = 0` with duty
`v ∈ [1, 255]` on pin `p ≠ 0`, the level after `k + 1` ticks (`k < 256`) is
high exactly for `k < v`. -/
lemma dispatchRun_level_base (i : Fin NUMBER_ISR_TIMERS) (p v : Nat)
    (hp : p ≠ 0) (h1 : 1 ≤ v) (h2 : v ≤ 255) (t : Table) (lvl : Nat)
    (hb : (t i).beingUsed = true) (hpin : (t i).pin = p)
    (hv : (t i).PWM_Value = (v : Int)) (hc : (t i).countPWM = 0) :
    ∀ k, k < 256 →
      (dispatchRun i p (k + 1) (t, lvl)).2 = if k < v then 1 else 0 := by
  have hstate : ∀ k, k ≤ 255 →
      (dispatchRun i p k (t, lvl)).1 i = tickIter k (t i) := by
    intro k _
    rw [dispatchRun_fst_apply, if_pos rfl]
  have hfields : ∀ k, k ≤ 255 →
      ((dispatchRun i p k (t, lvl)).1 i).beingUsed = true ∧
      ((dispatchRun i p k (t, lvl)).1 i).pin = p ∧
      ((dispatchRun i p k (t, lvl)).1 i).PWM_Value = (v : Int) ∧
      ((dispatchRun i p k (t, lvl)).1 i).countPWM = (k : Int) := by
    intro k hk
    rw [hstate k hk]
    obtain ⟨f1, f2, f3, f4⟩ := tickIter_fields k (t i)
    refine ⟨f3 ▸ hb, f2 ▸ hpin, f1 ▸ hv, ?_⟩
    have := tickIter_countPWM k (t i) 0 (by simpa using hc) (by omega)
    simpa using this
  intro k
  induction k with
  | zero =>
      intro _
      rw [dispatchRun_snoc]
      obtain ⟨f1, f2, f3, f4⟩ := hfields 0 (by omega)
      show applyWrites p _ (slotWrites ((dispatchRun i p 0 (t, lvl)).1 i)) = _
      rw [slotWrites_active _ p v f1 f2 hp f3 h1, f4]
      norm_num [applyWrites_single]
      rw [if_pos (by omega : 0 < v)]
  | succ n ih =>
      intro hn
      rw [dispatchRun_snoc]
      obtain ⟨f1, f2, f3, f4⟩ := hfields (n + 1) (by omega)
      show applyWrites p (dispatchRun i p (n + 1) (t, lvl)).2
        (slotWrites ((dispatchRun i p (n + 1) (t, lvl)).1 i)) = _
      rw [slotWrites_active _ p v f1 f2 hp f3 h1, f4]
      have hne0 : ((n + 1 : Nat) : Int) ≠ 0 := by exact_mod_cast Nat.succ_ne_zero n
      rw [if_neg hne0]
      by_cases hnv : n + 1 = v
      · rw [if_pos (by exact_mod_cast hnv), applyWrites_single]
        rw [if_neg (by omega)]
      · rw [if_neg (by exact_mod_cast hnv), applyWrites_nil, ih (by omega)]
        by_cases hlt : n < v
        · rw [if_pos hlt, if_pos (by omega)]
        · rw [if_neg hlt, if_neg (by omega)]

/-- Levels over all time: the waveform is `MAX_PWM_VALUE`-periodic, high
exactly on the ticks whose phase counter lies below the duty value. -/
lemma dispatchRun_level_formula (i : Fin NUMBER_ISR_TIMERS) (p v : Nat)
    (hp : p ≠ 0) (h1 : 1 ≤ v) (h2 : v ≤ 255) :
    ∀ (k : Nat) (t : Table) (lvl : Nat),
      (t i).beingUsed = true → (t i).pin = p →
      (t i).PWM_Value = (v : Int) → (t i).countPWM = 0 →
      (dispatchRun i p (k + 1) (t, lvl)).2 = if k % 256 < v then 1 else 0 := by
  intro k
  induction k using Nat.strong_induction_on with
  | _ k ih =>
      intro t lvl hb hpin hv hc
      by_cases hk : k < 256
      · rw [dispatchRun_level_base i p v hp h1 h2 t lvl hb hpin hv hc k hk,
          Nat.mod_eq_of_lt hk]
      · push_neg at hk
        have hsplit : k + 1 = 256 + (k - 256 + 1) := by omega
        rw [hsplit, dispatchRun_add]
        set st := dispatchRun i p 256 (t, lvl) with hst
        have hslot : st.1 i = tickIter 256 (t i) := by
          rw [hst, dispatchRun_fst_apply, if_pos rfl]
        obtain ⟨f1, f2, f3, f4⟩ := tickIter_fields 256 (t i)
        have hcount : (tickIter 256 (t i)).countPWM = 0 := by
          rw [tickIter_countPWM_mod 256 (t i) 0 (by simpa using hc) (by omega)]
          norm_num
        have heta : st = (st.1, st.2) := rfl
        have hrec := ih (k - 256) (by omega) st.1 st.2
          (by rw [hslot, f3]; exact hb) (by rw [hslot, f2]; exact hpin)
          (by rw [hslot, f1]; exact hv) (by rw [hslot]; exact hcount)
        rw [heta, hrec, Nat.mod_eq_sub_mod hk]

/-- Counting the high ticks in any window of `256` consecutive ticks: for a
`256`-periodic high-below-`v` pattern, every window holds exactly `v` highs. -/
lemma card_window (v : Nat) (hv : v ≤ 256) :
    ∀ m : Nat,
      ((Finset.range 256).filter (fun k => (m + k) % 256 < v)).card = v := by
  intro m
  induction m with
  | zero =>
      have hcongr : (Finset.range 256).filter (fun k => (0 + k) % 256 < v)
          = (Finset.range 256).filter (fun k => k < v) := by
        apply Finset.filter_congr
        intro x hx
        rw [Finset.mem_range] at hx
        rw [Nat.zero_add, Nat.mod_eq_of_lt hx]
      have hr : (Finset.range 256).filter (fun k => k < v) = Finset.range v := by
        ext x
        simp only [Finset.mem_filter, Finset.mem_range]
        omega
      rw [hcongr, hr, Finset.card_range]
  | succ m ih =>
      have hsum : ∀ q : Nat,
          ((Finset.range 256).filter (fun k => (q + k) % 256 < v)).card
            = ∑ k ∈ Finset.range 256, (if (q + k) % 256 < v then 1 else 0) := by
        intro q
        rw [Finset.card_filter]
      set g : Nat → Nat := fun j => if (m + j) % 256 < v then 1 else 0 with hg
      have hshift : ∀ k : Nat, (if (m + 1 + k) % 256 < v then 1 else 0) = g (k + 1) := by
        intro k
        simp only [hg]
        congr 2
        omega
      have hsucc : ∑ j ∈ Finset.range 257, g j
          = (∑ k ∈ Finset.range 256, g (k + 1)) + g 0 := Finset.sum_range_succ' g 256
      have hsucc2 : ∑ j ∈ Finset.range 257, g j
          = (∑ j ∈ Finset.range 256, g j) + g 256 := Finset.sum_range_succ g 256
      have hg256 : g 256 = g 0 := by
        simp only [hg, Nat.add_mod_right, Nat.add_zero]
      have hcancel : ∑ k ∈ Finset.range 256, g (k + 1)
          = ∑ j ∈ Finset.range 256, g j := by
        have hboth : (∑ k ∈ Finset.range 256, g (k + 1)) + g 0
            = (∑ j ∈ Finset.range 256, g j) + g 0 := by
          rw [← hsucc, hsucc2, hg256]
        exact Nat.add_right_cancel hboth
      rw [hsum (m + 1)]
      calc ∑ k ∈ Finset.range 256, (if (m + 1 + k) % 256 < v then 1 else 0)
          = ∑ k ∈ Finset.range 256, g (k + 1) := by
            exact Finset.sum_congr rfl fun k _ => hshift k
        _ = ∑ j ∈ Finset.range 256, g j := hcancel
        _ = v := by rw [← hsum m]; exact ih

/-- If the slot's duty is not positive, the dispatcher never writes the pin:
the tracked level stays at its initial value forever. -/
lemma dispatchRun_level_const (i : Fin NUMBER_ISR_TIMERS) (p lvl : Nat) :
    ∀ (n : Nat) (t : Table), (t i).PWM_Value ≤ 0 →
      (dispatchRun i p n (t, lvl)).2 = lvl := by
  intro n
  induction n with
  | zero => intro t _; rfl
  | succ n ih =>
      intro t hv
      have hw : slotWrites (t i) = [] := by
        rw [slotWrites, if_neg]
        rintro ⟨-, hpos, -⟩
        omega
      show (dispatchRun i p n (dispatchStep i p (t, lvl))).2 = lvl
      have hstep : dispatchStep i p (t, lvl) = (updateSlot t i tickSlot, lvl) := by
        rw [dispatchStep]
        show (updateSlot t i tickSlot, applyWrites p lvl (slotWrites (t i))) = _
        rw [hw, applyWrites_nil]
      rw [hstep]
      exact ih _ (by rw [updateSlot_self]; exact hv)

/-- The allocation path of `fakeAnalogWrite`: with no slot bound to `pin`
and a free slot available, that slot is bound. -/
lemma fakeAnalogWrite_alloc (t : Table) (p v : Nat) (i : Fin NUMBER_ISR_TIMERS)
    (hnb : findBound t p = none) (hf : findFree t = some i) :
    ((fakeAnalogWrite t p v) i).beingUsed = true ∧
    ((fakeAnalogWrite t p v) i).pin = p ∧
    ((fakeAnalogWrite t p v) i).PWM_Value = ((localValue v : Nat) : Int) ∧
    ((fakeAnalogWrite t p v) i).countPWM = 0 := by
  simp only [fakeAnalogWrite, hnb, hf, updateSlot_self]
  by_cases hb : localValue v = 0 ∨ localValue v = MAX_PWM_VALUE - 1
  · rw [if_pos hb]
    exact ⟨rfl, rfl, rfl, rfl⟩
  · rw [if_neg hb]
    exact ⟨rfl, rfl, rfl, rfl⟩

/-! ## Reachability invariants -/

lemma localValue_le (v : Nat) : localValue v ≤ 256 := by
  rw [localValue]
  split
  · next h => exact Nat.le_of_lt h
  · exact le_refl 256

/-- Exhaustive description of what one `fakeAnalogWrite` call can do to a
single slot: leave it alone, overwrite it on the update path, free it on
the release path (only possible when its `PWM_Value` was negative), or
bind it on one of the two allocation arms. -/
lemma fakeAnalogWrite_cases (t : Table) (p v : Nat) (j : Fin NUMBER_ISR_TIMERS) :
    (fakeAnalogWrite t p v) j = t j
    ∨ (fakeAnalogWrite t p v) j =
        { t j with PWM_PremapValue := localValue v,
                   PWM_Value := ((localValue v : Nat) : Int), countPWM := 0 }
    ∨ ((fakeAnalogWrite t p v) j =
        { t j with beingUsed := false, pin := 0, PWM_Value := 0, countPWM := 0 }
        ∧ (t j).PWM_Value < 0)
    ∨ (fakeAnalogWrite t p v) j =
        { t j with beingUsed := true, pin := p,
                   PWM_Value := ((localValue v : Nat) : Int), countPWM := 0 }
    ∨ (fakeAnalogWrite t p v) j =
        { t j with beingUsed := true, pin := p, PWM_PremapValue := localValue v,
                   PWM_Value := ((localValue v : Nat) : Int), countPWM := 0 } := by
  cases hb : findBound t p with
  | some i =>
      simp only [fakeAnalogWrite, hb]
      by_cases hsame : (t i).PWM_PremapValue = localValue v
      · rw [if_pos hsame]
        exact Or.inl rfl
      · rw [if_neg hsame]
        by_cases hnn : (0 : Int) ≤ (t i).PWM_Value
        · rw [if_pos hnn]
          by_cases hj : j = i
          · subst hj
            rw [updateSlot_self]
            exact Or.inr (Or.inl rfl)
          · rw [updateSlot_other _ _ _ _ hj]
            exact Or.inl rfl
        · rw [if_neg hnn]
          by_cases hj : j = i
          · subst hj
            rw [updateSlot_self]
            exact Or.inr (Or.inr (Or.inl ⟨rfl, by omega⟩))
          · rw [updateSlot_other _ _ _ _ hj]
            exact Or.inl rfl
  | none =>
      cases hf : findFree t with
      | some i =>
          simp only [fakeAnalogWrite, hb, hf]
          by_cases hj : j = i
          · subst hj
            rw [updateSlot_self]
            by_cases hbd : localValue v = 0 ∨ localValue v = MAX_PWM_VALUE - 1
            · rw [if_pos hbd]
              exact Or.inr (Or.inr (Or.inr (Or.inl rfl)))
            · rw [if_neg hbd]
              exact Or.inr (Or.inr (Or.inr (Or.inr rfl)))
          · rw [updateSlot_other _ _ _ _ hj]
            exact Or.inl rfl
      | none =>
          simp only [fakeAnalogWrite, hb, hf]
          exact Or.inl trivial

/-- Every table reachable through `fakeAnalogWrite` and `TimerHandler`
satisfies the slot invariant. -/
lemma reachable_slotInv {t : Table} (h : Reachable t) :
    ∀ j, SlotInv (t j) := by
  induction h with
  | init =>
      intro j
      exact ⟨le_refl 0, show (0 : Int) ≤ 255 by norm_num, le_refl 0,
        show (0 : Int) ≤ 256 by norm_num⟩
  | request p v h ih =>
      intro j
      rename_i t'
      have hlv0 : (0 : Int) ≤ ((localValue v : Nat) : Int) := by positivity
      have hlv1 : ((localValue v : Nat) : Int) ≤ 256 := by
        exact_mod_cast localValue_le v
      obtain ⟨c1, c2, c3, c4⟩ := ih j
      rcases fakeAnalogWrite_cases t' p v j with hc | hc | ⟨hc, -⟩ | hc | hc
      · rw [SlotInv, hc]
        exact ⟨c1, c2, c3, c4⟩
      · rw [SlotInv, hc]
        exact ⟨le_refl 0, show (0 : Int) ≤ 255 by norm_num, hlv0, hlv1⟩
      · rw [SlotInv, hc]
        exact ⟨le_refl 0, show (0 : Int) ≤ 255 by norm_num, le_refl 0,
          show (0 : Int) ≤ 256 by norm_num⟩
      · rw [SlotInv, hc]
        exact ⟨le_refl 0, show (0 : Int) ≤ 255 by norm_num, hlv0, hlv1⟩
      · rw [SlotInv, hc]
        exact ⟨le_refl 0, show (0 : Int) ≤ 255 by norm_num, hlv0, hlv1⟩
  | tick h ih =>
      intro j
      rename_i t'
      obtain ⟨c1, c2, c3, c4⟩ := ih j
      rw [TimerHandler_apply]
      refine ⟨?_, ?_, c3, c4⟩
      · rw [tickSlot_countPWM]
        exact Int.tmod_nonneg 256 (by omega)
      · rw [tickSlot_countPWM]
        have := Int.tmod_lt_of_pos ((t' j).countPWM + 1) (by norm_num : (0:Int) < 256)
        omega

/-! ## Claim theorems -/

/-- C1: for every pin bound by a request with value in `[1, MAX_DUTY-1]`
(calibration disabled: the mapping table is compiled out, so the stored
duty is the clamped value itself), the dispatcher drives the pin high for
exactly `value` ticks out of every `MAX_PWM_VALUE` consecutive ticks:
the level after tick `k+1` is high exactly while the phase counter
`k mod MAX_PWM_VALUE` is below `value`, and every window of
`MAX_PWM_VALUE` consecutive ticks contains exactly `value` high ticks. -/
theorem claim1_duty_ratio (t : Table) (i : Fin NUMBER_ISR_TIMERS) (p v lvl : Nat)
    (hnb : findBound t p = none) (hfree : findFree t = some i)
    (hp : p ≠ 0) (hv1 : 1 ≤ v) (hv2 : v ≤ MAX_PWM_VALUE - 1) :
    (∀ k, (dispatchRun i p (k + 1) (fakeAnalogWrite t p v, lvl)).2
        = if k % MAX_PWM_VALUE < v then 1 else 0)
    ∧ ∀ m, ((Finset.range MAX_PWM_VALUE).filter
        (fun k => (dispatchRun i p (m + k + 1) (fakeAnalogWrite t p v, lvl)).2 = 1)).card
          = v := by
  obtain ⟨f1, f2, f3, f4⟩ := fakeAnalogWrite_alloc t p v i hnb hfree
  have hv255 : v ≤ 255 := hv2
  have hv256 : v < MAX_PWM_VALUE := show v < 256 by omega
  have hlv : localValue v = v := by rw [localValue, if_pos hv256]
  have f3' : ((fakeAnalogWrite t p v) i).PWM_Value = (v : Int) := by
    rw [f3, hlv]
  have hform := dispatchRun_level_formula i p v hp hv1 hv255
  constructor
  · intro k
    exact hform k (fakeAnalogWrite t p v) lvl f1 f2 f3' f4
  · intro m
    have hpred : ∀ k ∈ Finset.range MAX_PWM_VALUE,
        ((dispatchRun i p (m + k + 1) (fakeAnalogWrite t p v, lvl)).2 = 1
          ↔ (m + k) % 256 < v) := by
      intro k _
      rw [hform (m + k) (fakeAnalogWrite t p v) lvl f1 f2 f3' f4]
      by_cases hlt : (m + k) % 256 < v
      · simp [hlt]
      · simp [hlt]
    rw [Finset.filter_congr hpred]
    exact card_window v (by omega) m

/-- C1 witness: a fresh request of duty 128 on pin 2. -/
theorem claim1_duty_ratio_witness :
    (∀ k, (dispatchRun 0 2 (k + 1) (fakeAnalogWrite initTable 2 128, 0)).2
        = if k % MAX_PWM_VALUE < 128 then 1 else 0)
    ∧ ∀ m, ((Finset.range MAX_PWM_VALUE).filter
        (fun k => (dispatchRun 0 2 (m + k + 1) (fakeAnalogWrite initTable 2 128, 0)).2 = 1)).card
          = 128 :=
  claim1_duty_ratio initTable 0 2 128 0 (by decide) (by decide) (by decide)
    (by decide) (by decide)

/-- C2 counterexample: the claim says the stored duty always lies in
`[0, MAX_DUTY)` for an active, not-pending-release slot.  But the clamp
stores `MAX_PWM_VALUE` itself for any input at or above it: a single
request of value 1000 leaves an active slot (not pending release) with
duty exactly `MAX_PWM_VALUE`. -/
theorem claim2_counterexample :
    ((fakeAnalogWrite initTable 5 1000) 0).beingUsed = true
    ∧ 0 ≤ ((fakeAnalogWrite initTable 5 1000) 0).PWM_Value
    ∧ ((MAX_PWM_VALUE : Nat) : Int) ≤ ((fakeAnalogWrite initTable 5 1000) 0).PWM_Value := by
  decide

/-- C2 amended: the clamp is to the closed interval `[0, MAX_DUTY]`, so in
every reachable state every slot's stored duty lies in `[0, MAX_DUTY]`
(the value `MAX_DUTY` itself is reached exactly by requests of
`value ≥ MAX_DUTY`). -/
theorem claim2_clamp_inclusive {t : Table} (h : Reachable t)
    (i : Fin NUMBER_ISR_TIMERS) :
    0 ≤ (t i).PWM_Value ∧ (t i).PWM_Value ≤ ((MAX_PWM_VALUE : Nat) : Int) := by
  obtain ⟨-, -, c3, c4⟩ := reachable_slotInv h i
  refine ⟨c3, ?_⟩
  have : ((MAX_PWM_VALUE : Nat) : Int) = 256 := by norm_num
  omega

/-- C2 witness: the bound evaluated on the reachable table produced by the
very request of the counterexample. -/
theorem claim2_clamp_inclusive_witness :
    0 ≤ ((fakeAnalogWrite initTable 5 1000) 0).PWM_Value
    ∧ ((fakeAnalogWrite initTable 5 1000) 0).PWM_Value ≤ ((MAX_PWM_VALUE : Nat) : Int) :=
  claim2_clamp_inclusive (Reachable.request 5 1000 Reachable.init) 0

/-- C3 counterexample: binding pin 2 with value 255 and repeating the same
request is not a no-op — the allocation arm for the boundary values 0 and
`MAX_PWM_VALUE - 1` does not record the requested value in
`PWM_PremapValue`, so the repeated request takes the update path: it
writes `PWM_PremapValue` (0 to 255) and resets `countPWM` (1 back to 0). -/
theorem claim3_counterexample :
    ((TimerHandler (fakeAnalogWrite initTable 2 255)) 0).countPWM = 1
    ∧ ((fakeAnalogWrite (TimerHandler (fakeAnalogWrite initTable 2 255)) 2 255) 0).countPWM = 0
    ∧ ((TimerHandler (fakeAnalogWrite initTable 2 255)) 0).PWM_PremapValue = 0
    ∧ ((fakeAnalogWrite (TimerHandler (fakeAnalogWrite initTable 2 255)) 2 255) 0).PWM_PremapValue
        = 255 := by
  decide

/-- C3 amended: a repeated request is suppressed (no slot mutation at all)
exactly when the stored `PWM_PremapValue` of the bound slot equals the
clamped value — which holds after any update-path request, but not after
an allocation with clamped value 0 or `MAX_PWM_VALUE - 1`, since the
boundary allocation arm does not record `PWM_PremapValue`. -/
theorem claim3_idempotent (t : Table) (p v : Nat) (i : Fin NUMBER_ISR_TIMERS)
    (hb : findBound t p = some i) (hsame : (t i).PWM_PremapValue = localValue v) :
    fakeAnalogWrite t p v = t := by
  simp only [fakeAnalogWrite, hb, if_pos hsame]

/-- C3 witness: re-requesting duty 100 on pin 2 right after it was bound
with duty 100 leaves the table untouched. -/
theorem claim3_idempotent_witness :
    fakeAnalogWrite (fakeAnalogWrite initTable 2 100) 2 100
      = fakeAnalogWrite initTable 2 100 :=
  claim3_idempotent (fakeAnalogWrite initTable 2 100) 2 100 0 (by decide) (by decide)

/-- C4: a request on a pin whose slot is marked for release
(negative stored duty) frees the slot — clears the in-use flag, the pin
and the duty — instead of updating it; the slot is still free after the
next tick, and a later request for a fresh pin can rebind exactly that
slot.  (The request must not be suppressed by the stored
`PWM_PremapValue`; the specification orders the same-value no-op check
before the release check.) -/
theorem claim4_release (t : Table) (p v p2 v2 : Nat) (i : Fin NUMBER_ISR_TIMERS)
    (hb : findBound t p = some i) (hneg : (t i).PWM_Value < 0)
    (hdiff : (t i).PWM_PremapValue ≠ localValue v) :
    (((fakeAnalogWrite t p v) i).beingUsed = false
      ∧ ((fakeAnalogWrite t p v) i).pin = 0
      ∧ ((fakeAnalogWrite t p v) i).PWM_Value = 0)
    ∧ ((TimerHandler (fakeAnalogWrite t p v)) i).beingUsed = false
    ∧ (findBound (TimerHandler (fakeAnalogWrite t p v)) p2 = none →
        findFree (TimerHandler (fakeAnalogWrite t p v)) = some i →
        ((fakeAnalogWrite (TimerHandler (fakeAnalogWrite t p v)) p2 v2) i).beingUsed = true
        ∧ ((fakeAnalogWrite (TimerHandler (fakeAnalogWrite t p v)) p2 v2) i).pin = p2) := by
  have hfree : (fakeAnalogWrite t p v) i =
      { t i with beingUsed := false, pin := 0, PWM_Value := 0, countPWM := 0 } := by
    simp only [fakeAnalogWrite, hb, if_neg hdiff,
      if_neg (show ¬ (0 : Int) ≤ (t i).PWM_Value by omega), updateSlot_self]
  refine ⟨⟨?_, ?_, ?_⟩, ?_, ?_⟩
  · rw [hfree]
  · rw [hfree]
  · rw [hfree]
  · rw [TimerHandler_apply, tickSlot_beingUsed, hfree]
  · intro hnb2 hfr2
    obtain ⟨g1, g2, -, -⟩ := fakeAnalogWrite_alloc _ p2 v2 i hnb2 hfr2
    exact ⟨g1, g2⟩

/-- C4 witness: slot 0 bound to pin 7 and marked for release is freed by
a request on pin 7, stays free across a tick, and is rebound to pin 9 by
the next allocation. -/
theorem claim4_release_witness :
    (((fakeAnalogWrite releaseTable 7 5) 0).beingUsed = false
      ∧ ((fakeAnalogWrite releaseTable 7 5) 0).pin = 0
      ∧ ((fakeAnalogWrite releaseTable 7 5) 0).PWM_Value = 0)
    ∧ ((TimerHandler (fakeAnalogWrite releaseTable 7 5)) 0).beingUsed = false
    ∧ (((fakeAnalogWrite (TimerHandler (fakeAnalogWrite releaseTable 7 5)) 9 100) 0).beingUsed
          = true
      ∧ ((fakeAnalogWrite (TimerHandler (fakeAnalogWrite releaseTable 7 5)) 9 100) 0).pin = 9) := by
  obtain ⟨h1, h2, h3⟩ :=
    claim4_release releaseTable 7 5 9 100 0 (by decide) (by decide) (by decide)
  exact ⟨h1, h2, h3 (by decide) (by decide)⟩

/-- C5: capacity exhaustion is a silent atomic no-op — with all 16 slots
in use and none bound to the requested pin, a request changes nothing. -/
theorem claim5_capacity (t : Table) (p v : Nat)
    (hFull : ∀ i, (t i).beingUsed = true) (hDiff : ∀ i, (t i).pin ≠ p) :
    fakeAnalogWrite t p v = t := by
  have hnb : findBound t p = none := by
    rw [findBound]
    refine List.find?_eq_none.mpr ?_
    intro i _
    simp only [Bool.and_eq_true, beq_iff_eq, not_and]
    intro _
    exact hDiff i
  have hfr : findFree t = none := by
    rw [findFree]
    refine List.find?_eq_none.mpr ?_
    intro i _
    simp [hFull i]
  simp only [fakeAnalogWrite, hnb, hfr]

/-- C5 witness: the full table of pins 1..16 is unchanged by a request
for a 17th pin. -/
theorem claim5_capacity_witness : fakeAnalogWrite fullTable 100 7 = fullTable :=
  claim5_capacity fullTable 100 7 (by decide) (by decide)

/-- C6 amended, both boundary duties.  Value 0: a request of 0 that
actually takes effect on the update path (not suppressed by a stale
`PWM_PremapValue = 0`) stores duty 0, after which the dispatcher never
writes the pin at all — the tracked level stays put forever, in
particular the pin is never driven high.  Value `MAX_PWM_VALUE - 1` on a
fresh binding: the pin is high for `MAX_PWM_VALUE - 1` of every
`MAX_PWM_VALUE` ticks and low only on the tick whose phase counter is
`MAX_PWM_VALUE - 1`. -/
theorem claim6_boundary (tA tB : Table) (pA pB : Nat)
    (iA iB : Fin NUMBER_ISR_TIMERS) :
    (findBound tA pA = some iA → (tA iA).PWM_PremapValue ≠ 0 →
      0 ≤ (tA iA).PWM_Value →
      ((fakeAnalogWrite tA pA 0) iA).PWM_Value = 0
      ∧ ∀ n lvl, (dispatchRun iA pA n (fakeAnalogWrite tA pA 0, lvl)).2 = lvl)
    ∧ (findBound tB pB = none → findFree tB = some iB → pB ≠ 0 →
      ∀ k lvl,
        (dispatchRun iB pB (k + 1) (fakeAnalogWrite tB pB (MAX_PWM_VALUE - 1), lvl)).2
          = if k % MAX_PWM_VALUE < MAX_PWM_VALUE - 1 then 1 else 0) := by
  constructor
  · intro hbA hne hnn
    have hl0 : localValue 0 = 0 := by decide
    have hne2 : ¬ (tA iA).PWM_PremapValue = localValue 0 := by
      rw [hl0]
      exact hne
    have hupd : (fakeAnalogWrite tA pA 0) iA =
        { tA iA with PWM_PremapValue := localValue 0,
                     PWM_Value := ((localValue 0 : Nat) : Int), countPWM := 0 } := by
      simp only [fakeAnalogWrite, hbA, if_neg hne2, if_pos hnn, updateSlot_self]
    have hzero : ((fakeAnalogWrite tA pA 0) iA).PWM_Value = 0 := by
      rw [hupd]
      show ((localValue 0 : Nat) : Int) = 0
      rw [hl0]
      rfl
    refine ⟨hzero, ?_⟩
    intro n lvl
    exact dispatchRun_level_const iA pA lvl n (fakeAnalogWrite tA pA 0) (by omega)
  · intro hbB hfB hpB
    intro k lvl
    obtain ⟨f1, f2, f3, f4⟩ :=
      fakeAnalogWrite_alloc tB pB (MAX_PWM_VALUE - 1) iB hbB hfB
    have hl255 : localValue (MAX_PWM_VALUE - 1) = 255 := by decide
    have f3' : ((fakeAnalogWrite tB pB (MAX_PWM_VALUE - 1)) iB).PWM_Value
        = ((255 : Nat) : Int) := by rw [f3, hl255]
    exact dispatchRun_level_formula iB pB 255 hpB (by omega) (by omega) k
      (fakeAnalogWrite tB pB (MAX_PWM_VALUE - 1)) lvl f1 f2 f3' f4

/-- C6 witness: pin 2 first set to duty 37 then to 0 goes and stays
silent; pin 3 freshly bound at duty 255 follows the one-low-tick-per-period
waveform. -/
theorem claim6_boundary_witness :
    (((fakeAnalogWrite (fakeAnalogWrite initTable 2 37) 2 0) 0).PWM_Value = 0
      ∧ ∀ n lvl,
        (dispatchRun 0 2 n (fakeAnalogWrite (fakeAnalogWrite initTable 2 37) 2 0, lvl)).2 = lvl)
    ∧ (∀ k lvl,
        (dispatchRun 0 3 (k + 1) (fakeAnalogWrite initTable 3 (MAX_PWM_VALUE - 1), lvl)).2
          = if k % MAX_PWM_VALUE < MAX_PWM_VALUE - 1 then 1 else 0) := by
  obtain ⟨hA, hB⟩ := claim6_boundary (fakeAnalogWrite initTable 2 37) initTable 2 3 0 0
  exact ⟨hA (by decide) (by decide) (by decide), hB (by decide) (by decide) (by decide)⟩

/-- C6 counterexample: the claim as stated — the pin is never driven high
after a request of value 0 — fails.  Bind pin 2 with value 255 (the
allocation arm leaves `PWM_PremapValue` at 0), then request value 0: the
request is wrongly suppressed as a duplicate, the duty stays 255, and the
very next tick drives pin 2 high. -/
theorem claim6_counterexample :
    (doingSomething (fakeAnalogWrite (fakeAnalogWrite initTable 2 255) 2 0) 0).2 = [(2, 1)]
    ∧ ((fakeAnalogWrite (fakeAnalogWrite initTable 2 255) 2 0) 0).PWM_Value = 255 := by
  decide

/-- C7: in every reachable state every slot's phase counter lies in
`[0, MAX_PWM_VALUE)`, and a tick advances it to
`(phase + 1) mod MAX_PWM_VALUE` (C truncated remainder). -/
theorem claim7_phase_bound {t : Table} (h : Reachable t)
    (i : Fin NUMBER_ISR_TIMERS) :
    (0 ≤ (t i).countPWM ∧ (t i).countPWM < ((MAX_PWM_VALUE : Nat) : Int))
    ∧ ((TimerHandler t) i).countPWM
        = Int.tmod ((t i).countPWM + 1) ((MAX_PWM_VALUE : Nat) : Int) := by
  obtain ⟨c1, c2, -, -⟩ := reachable_slotInv h i
  have hcast : ((MAX_PWM_VALUE : Nat) : Int) = 256 := by norm_num
  refine ⟨⟨c1, by omega⟩, ?_⟩
  rw [TimerHandler_apply]
  rfl

/-- C7 witness: the bound and the advance formula on the reachable table
reached by one request and one tick. -/
theorem claim7_phase_bound_witness :
    (0 ≤ ((TimerHandler (fakeAnalogWrite initTable 2 10)) 0).countPWM
      ∧ ((TimerHandler (fakeAnalogWrite initTable 2 10)) 0).countPWM
          < ((MAX_PWM_VALUE : Nat) : Int))
    ∧ ((TimerHandler (TimerHandler (fakeAnalogWrite initTable 2 10))) 0).countPWM
        = Int.tmod (((TimerHandler (fakeAnalogWrite initTable 2 10)) 0).countPWM + 1)
            ((MAX_PWM_VALUE : Nat) : Int) :=
  claim7_phase_bound (Reachable.tick (Reachable.request 2 10 Reachable.init)) 0

/-- C8: the update path of the allocator is three separate stores with no
interrupt masking anywhere in the sketch, and the composition equals the
unitary update — so a tick arriving between the `PWM_Value` store
(line 291) and the `countPWM` store (line 310) observes the slot with the
new duty 200 paired with the stale phase 100, a state equal neither to
the pre-call slot (duty 10, phase 100) nor to the post-call slot
(duty 200, phase 0). -/
theorem claim8_torn_write :
    fakeAnalogWrite tornBase 2 200
      = writeCount (writeValue (writePremap tornBase 0 200) 0 200) 0
    ∧ ((writeValue (writePremap tornBase 0 200) 0 200) 0).PWM_Value = 200
    ∧ ((writeValue (writePremap tornBase 0 200) 0 200) 0).countPWM = 100
    ∧ (tornBase 0).PWM_Value = 10
    ∧ ((fakeAnalogWrite tornBase 2 200) 0).countPWM = 0 := by
  decide

/-- C9: through the public interface no slot is ever freed — the stored
duty is never negative in any reachable state, so the release branch is
unreachable and the in-use flag is monotone under both requests and
ticks. -/
theorem claim9_no_release {t : Table} (h : Reachable t) :
    (∀ i, 0 ≤ (t i).PWM_Value)
    ∧ (∀ (p v : Nat) (i : Fin NUMBER_ISR_TIMERS), (t i).beingUsed = true →
        ((fakeAnalogWrite t p v) i).beingUsed = true)
    ∧ (∀ i, (t i).beingUsed = true → ((TimerHandler t) i).beingUsed = true) := by
  refine ⟨fun i => (reachable_slotInv h i).2.2.1, ?_, ?_⟩
  · intro p v i hu
    have hnn := (reachable_slotInv h i).2.2.1
    rcases fakeAnalogWrite_cases t p v i with hc | hc | ⟨hc, hneg⟩ | hc | hc
    · rw [hc]; exact hu
    · rw [hc]; exact hu
    · omega
    · rw [hc]
    · rw [hc]
  · intro i hu
    rw [TimerHandler_apply, tickSlot_beingUsed]
    exact hu

/-- C9 witness: applied to the reachable table with pin 2 bound at slot 0:
the duty is nonnegative and slot 0 stays in use under a further request
and under a tick. -/
theorem claim9_no_release_witness :
    0 ≤ ((fakeAnalogWrite initTable 2 10) 0).PWM_Value
    ∧ ((fakeAnalogWrite (fakeAnalogWrite initTable 2 10) 4 50) 0).beingUsed = true
    ∧ ((TimerHandler (fakeAnalogWrite initTable 2 10)) 0).beingUsed = true := by
  obtain ⟨h1, h2, h3⟩ := claim9_no_release (Reachable.request 2 10 Reachable.init)
  exact ⟨h1 0, h2 4 50 0 (by decide), h3 0 (by decide)⟩

/-- C10: one invocation of the per-slot tick routine is a frame — it
changes only that slot's phase counter: the in-use flag, pin, duty and
last-requested value of the ticked slot are untouched, and every other
slot is untouched entirely. -/
theorem claim10_tick_frame (t : Table) (i : Fin NUMBER_ISR_TIMERS) :
    ((doingSomething t i).1 i).beingUsed = (t i).beingUsed
    ∧ ((doingSomething t i).1 i).pin = (t i).pin
    ∧ ((doingSomething t i).1 i).PWM_Value = (t i).PWM_Value
    ∧ ((doingSomething t i).1 i).PWM_PremapValue = (t i).PWM_PremapValue
    ∧ ∀ j, j ≠ i → (doingSomething t i).1 j = t j := by
  refine ⟨?_, ?_, ?_, ?_, ?_⟩
  · show (updateSlot t i tickSlot i).beingUsed = _
    rw [updateSlot_self, tickSlot_beingUsed]
  · show (updateSlot t i tickSlot i).pin = _
    rw [updateSlot_self, tickSlot_pin]
  · show (updateSlot t i tickSlot i).PWM_Value = _
    rw [updateSlot_self, tickSlot_PWM_Value]
  · show (updateSlot t i tickSlot i).PWM_PremapValue = _
    rw [updateSlot_self, tickSlot_PWM_PremapValue]
  · intro j hj
    show updateSlot t i tickSlot j = t j
    exact updateSlot_other _ _ _ _ hj

/-- C10 witness: the frame property evaluated at slot 0 of the initial
table, with slot 1 as the untouched other slot. -/
theorem claim10_tick_frame_witness :
    ((doingSomething initTable 0).1 0).beingUsed = (initTable 0).beingUsed
    ∧ ((doingSomething initTable 0).1 0).pin = (initTable 0).pin
    ∧ ((doingSomething initTable 0).1 0).PWM_Value = (initTable 0).PWM_Value
    ∧ ((doingSomething initTable 0).1 0).PWM_PremapValue = (initTable 0).PWM_PremapValue
    ∧ (doingSomething initTable 0).1 1 = initTable 1 := by
  obtain ⟨h1, h2, h3, h4, h5⟩ := claim10_tick_frame initTable 0
  exact ⟨h1, h2, h3, h4, h5 1 (by decide)⟩

example : findFree initTable = some 0 := by decide
example : ((fakeAnalogWrite initTable 2 255) 0).PWM_Value = 255 := by decide
example : ((fakeAnalogWrite initTable 2 255) 0).PWM_PremapValue = 0 := by decide
example : ((fakeAnalogWrite initTable 5 1000) 0).PWM_Value = 256 := by decide
example : ((TimerHandler (fakeAnalogWrite initTable 2 255)) 0).countPWM = 1 := by decide
example :
    (doingSomething (fakeAnalogWrite (fakeAnalogWrite initTable 2 255) 2 0) 0).2
      = [(2, 1)] := by decide
